import Mathlib

/-!
Verification of the matching-and-renaming pipeline of the invoice manager
backend (src/app.py).  Python strings are modelled as `List Char` (ASCII
semantics for character classes), Python dicts as association lists with
insert-overwrite semantics, and the regular expressions of the source are
translated into explicit position scans that reproduce the leftmost-match
behaviour of `re.search` / `re.findall`.
-/

namespace GestorFacturas

/-- Word character for the regex metacharacter used in the source patterns
(ASCII model of Python re word characters: alphanumeric or underscore). -/
def isWordChar (c : Char) : Bool := c.isAlphanum || c == '_'

/-- Whitespace for the regex whitespace class and for Python str.strip
(ASCII model: space, tab, newline, carriage return, vertical tab, form feed). -/
def isPySpace (c : Char) : Bool :=
  c == ' ' || c == '\t' || c == '\n' || c == '\r' ||
  c == Char.ofNat 11 || c == Char.ofNat 12

/-- Separator class of the invoice patterns: a colon or whitespace. -/
def isSepChar (c : Char) : Bool := c == ':' || isPySpace c

/-- Python str.strip(): remove leading and trailing whitespace. -/
def pyStrip (s : String) : String :=
  (((s.toList.dropWhile isPySpace).reverse.dropWhile isPySpace).reverse).asString

/-- Index of the last occurrence of a character in a list, if any. -/
def lastIndexOfChar (cs : List Char) (c : Char) : Option Nat :=
  ((cs.enum.filter (fun p => p.2 == c)).getLast?).map (fun p => p.1)

/-- Model of os.path.splitext(p)[0]: cut at the last dot of the final path
component, unless every character of the component before that dot is a dot. -/
def splitextBase (s : String) : String :=
  let cs := s.toList
  match lastIndexOfChar cs '.' with
  | none => s
  | some d =>
    let fstart := match lastIndexOfChar cs '/' with
      | none => 0
      | some k => k + 1
    if fstart ≤ d ∧ ((cs.drop fstart).take (d - fstart)).any (fun c => c != '.')
    then (cs.take d).asString else s

/-- Model of os.path.basename: the part after the last slash. -/
def pyBasename (s : String) : String :=
  match lastIndexOfChar s.toList '/' with
  | none => s
  | some i => (s.toList.drop (i + 1)).asString

/-- Characters removed by the sanitising substitution in the source
(the re.sub call deleting backslash, slash, star, question mark, colon,
double quote, angle brackets and pipe). -/
def isStrippedChar (c : Char) : Bool :=
  c == '\\' || c == '/' || c == '*' || c == '?' || c == ':' ||
  c == '"' || c == '<' || c == '>' || c == '|'

/-- Model of the re.sub call: delete every occurrence of the special
characters from the composed file name. -/
def sanitize (s : String) : String :=
  (s.toList.filter (fun c => !(isStrippedChar c))).asString

/-- Model of the Python substring test needle in hay. -/
def containsSub (hay needle : List Char) : Bool :=
  (List.range (hay.length + 1)).any (fun i => (hay.drop i).take needle.length == needle)

/-- Word-boundary test before position i: start of text or previous
character is not a word character. -/
def boundaryBeforeOk (text : List Char) (i : Nat) : Bool :=
  i == 0 || !(isWordChar (text.getD (i - 1) ' '))

/-- Word-boundary test after a digit run: end of text or next character is
not a word character. -/
def afterOk : List Char → Bool
  | [] => true
  | c :: _ => !(isWordChar c)

/-- One attempted match of the six-digit contract pattern at position i of
the text: exactly six digits with word boundaries on both sides. -/
def run6At (text : List Char) (i : Nat) : Option (List Char) :=
  if ((text.drop i).take 6).length == 6 && ((text.drop i).take 6).all Char.isDigit &&
      boundaryBeforeOk text i && afterOk (text.drop (i + 6))
  then some ((text.drop i).take 6) else none

/-- Model of re.findall of the six-digit contract pattern over the page
text: every qualifying position in left-to-right order.  Two qualifying
positions cannot overlap (the character before a qualifying run is not a
digit), so this coincides with the non-overlapping scan of findall. -/
def rawContractCandidates (text : List Char) : List (List Char) :=
  (List.range text.length).filterMap (run6At text)

/-- Specification-level reading of a contract candidate: a run of exactly
six digits occurring in the text with no word character adjacent on either
side. -/
def isSixDigitToken (text s : List Char) : Prop :=
  ∃ pre post, text = pre ++ s ++ post ∧ s.length = 6 ∧ s.all Char.isDigit = true ∧
    (∀ c, pre.getLast? = some c → isWordChar c = false) ∧
    (∀ c, post.head? = some c → isWordChar c = false)

/-- Possible results of the Python expression list(set(l)): iteration order
of a set is unspecified (string hashing is randomised per process), so the
code is modelled relationally: any duplicate-free list with exactly the
members of l is a possible outcome. -/
def pySetListOutcome (l r : List (List Char)) : Prop :=
  r.Nodup ∧ (∀ x ∈ r, x ∈ l) ∧ (∀ x ∈ l, x ∈ r)

/-- One attempted match of a bounded digit run at position i: a maximal run
of digits starting at i with a word boundary before it and a word boundary
after it.  Used by the standalone-number invoice patterns. -/
def boundedRunAt (text : List Char) (i : Nat) : Option (List Char) :=
  if boundaryBeforeOk text i then
    let rest := text.drop i
    let run := rest.takeWhile Char.isDigit
    if run.length != 0 && afterOk (rest.drop run.length) then some run else none
  else none

/-- First match of the standalone exactly-eight-digit invoice pattern
(word-bounded run of exactly 8 digits), leftmost occurrence. -/
def ruleExactly8 (text : List Char) : Option (List Char) :=
  ((List.range text.length).filterMap (fun i =>
    (boundedRunAt text i).bind (fun r => if r.length == 8 then some r else none))).head?

/-- First match of the standalone nine-plus-digit invoice pattern
(word-bounded run of at least 9 digits), leftmost occurrence. -/
def ruleNinePlus (text : List Char) : Option (List Char) :=
  ((List.range text.length).filterMap (fun i =>
    (boundedRunAt text i).bind (fun r => if 9 ≤ r.length then some r else none))).head?

/-- One attempted match of the Factura invoice pattern at position i: the
word Factura (case-insensitive, word boundary before), optional colon or
whitespace separators, then a run of at least 8 digits ending at a word
boundary.  The captured group is the digit run. -/
def facturaAt (text : List Char) (i : Nat) : Option (List Char) :=
  if boundaryBeforeOk text i then
    let rest := text.drop i
    if (rest.take 7).map Char.toLower == "factura".toList then
      let r2 := (rest.drop 7).dropWhile isSepChar
      let run := r2.takeWhile Char.isDigit
      if 8 ≤ run.length && afterOk (r2.drop run.length) then some run else none
    else none
  else none

/-- First match of the Factura pattern, leftmost occurrence. -/
def ruleFactura (text : List Char) : Option (List Char) :=
  ((List.range text.length).filterMap (facturaAt text)).head?

/-- One attempted match of the N invoice pattern at position i: the letter
N (case-insensitive, word boundary before), optional colon or whitespace
separators, then a run of at least 8 digits ending at a word boundary. -/
def nLetterAt (text : List Char) (i : Nat) : Option (List Char) :=
  if boundaryBeforeOk text i then
    match text.drop i with
    | [] => none
    | c :: r1 =>
      if c.toLower == 'n' then
        let r2 := r1.dropWhile isSepChar
        let run := r2.takeWhile Char.isDigit
        if 8 ≤ run.length && afterOk (r2.drop run.length) then some run else none
      else none
  else none

/-- First match of the N pattern, leftmost occurrence. -/
def ruleNLetter (text : List Char) : Option (List Char) :=
  ((List.range text.length).filterMap (nLetterAt text)).head?

/-- The ordered pattern list of extract_invoice_number_from_pdf. -/
def patternRules : List (List Char → Option (List Char)) :=
  [ruleFactura, ruleNLetter, ruleExactly8, ruleNinePlus]

/-- The loop over the pattern list: first rule with a match wins and its
first match is returned. -/
def tryRules : List (List Char → Option (List Char)) → List Char → Option (List Char)
  | [], _ => none
  | p :: ps, t =>
    match p t with
    | some r => some r
    | none => tryRules ps t

/-- Model of text.split of a newline: the lines of the page text. -/
def pyLines (text : List Char) : List (List Char) := text.splitOn '\n'

/-- First word-bounded run of at least 8 digits within one line. -/
def lineRun8 (line : List Char) : Option (List Char) :=
  ((List.range line.length).filterMap (fun i =>
    (boundedRunAt line i).bind (fun r => if 8 ≤ r.length then some r else none))).head?

/-- Fallback of extract_invoice_number_from_pdf: scan only the first five
lines for a standalone run of at least 8 digits, returning the first found. -/
def fallbackFirstLines (text : List Char) : Option (List Char) :=
  (((pyLines text).take 5).filterMap lineRun8).head?

/-- Model of extract_invoice_number_from_pdf on the extracted page text:
try the four patterns in order, then the first-five-lines fallback, else
absent. -/
def extract_invoice_number (text : List Char) : Option (List Char) :=
  match tryRules patternRules text with
  | some r => some r
  | none => fallbackFirstLines text

/-- Lookup in the contract map (Python dict access; the map never holds two
entries with the same key). -/
def lookupMap : List (String × String) → String → Option String
  | [], _ => none
  | (k, v) :: m, key => if k == key then some v else lookupMap m key

/-- Insert into the contract map with dict semantics: overwrite the entry
with the same key in place, else append. -/
def insertAssoc : List (String × String) → String → String → List (String × String)
  | [], k, v => [(k, v)]
  | (k', v') :: m, k, v =>
    if k' == k then (k, v) :: m else (k', v') :: insertAssoc m k v

/-- Structured reading of the per-file status strings of the source:
Renombrado, Contratos ... no estan en Excel (the joined candidate list), and
No se detectaron contratos de 6 digitos. -/
inductive FileStatus where
  | renamed (contract : String)
  | unmatchedCandidates (cands : List String)
  | noCandidates
  deriving DecidableEq

/-- Outcome of the per-file resolution step. -/
structure ResolveResult where
  newName : String
  status : FileStatus
  ubicacion : String
  deriving DecidableEq

/-- The candidate loop of process_pending_files / reprocess_single_pdf:
first candidate present as a key of the map wins, with its location. -/
def resolveLoop (cmap : List (String × String)) : List String → Option (String × String)
  | [] => none
  | c :: cs =>
    match lookupMap cmap c with
    | some u => some (c, u)
    | none => resolveLoop cmap cs

/-- Model of the match-and-compose block of process_pending_files (449-469)
and reprocess_single_pdf (324-351): resolve the candidates against the map,
compose the display name, sanitize it, and classify the status. -/
def resolve (cmap : List (String × String)) (cands : List String)
    (invoice : Option String) (filename : String) : ResolveResult :=
  match resolveLoop cmap cands with
  | some (c, u) =>
    let composed :=
      match invoice with
      | some inv => u ++ " - " ++ inv ++ ".pdf"
      | none => u ++ " - " ++ splitextBase filename ++ ".pdf"
    { newName := sanitize composed, status := .renamed c, ubicacion := u }
  | none =>
    if cands.isEmpty then
      { newName := filename, status := .noCandidates, ubicacion := "" }
    else
      { newName := filename, status := .unmatchedCandidates cands, ubicacion := "" }

/-- Whether the move branch of process_pending_files fires for a file that
already sits at the destination root: the final path differs from the
current path exactly when the basename of the composed name differs from
the current filename. -/
def rootFileMoves (cmap : List (String × String)) (cands : List String)
    (invoice : Option String) (filename : String) : Bool :=
  pyBasename (resolve cmap cands invoice filename).newName != filename

/-- One attempted match of the Contrato reference pattern at position i:
the word Contrato (case-insensitive, no boundary required), optional
whitespace, one or more digits, a slash, then one or more non-slash
characters.  Groups are the digits and the non-slash run. -/
def contratoAt (text : List Char) (i : Nat) : Option (String × String) :=
  let rest := text.drop i
  if (rest.take 8).map Char.toLower == "contrato".toList then
    let r1 := (rest.drop 8).dropWhile isPySpace
    let digits := r1.takeWhile Char.isDigit
    if digits.length != 0 then
      match r1.drop digits.length with
      | '/' :: r3 =>
        let loc := r3.takeWhile (fun c => c != '/')
        if loc.length != 0 then some (digits.asString, loc.asString) else none
      | _ => none
    else none
  else none

/-- Model of re.search of the Contrato pattern on a reference cell:
leftmost full match, if any. -/
def findContrato (text : List Char) : Option (String × String) :=
  ((List.range text.length).filterMap (contratoAt text)).head?

/-- The row loop of extract_contract_from_excel: for each reference cell in
row order, insert the stripped groups into the map and bump the count when
the pattern matches. -/
def extractRowsAux : List (String × String) → Nat → List String → List (String × String) × Nat
  | m, c, [] => (m, c)
  | m, c, ref :: rest =>
    match findContrato ref.toList with
    | some p => extractRowsAux (insertAssoc m (pyStrip p.1) (pyStrip p.2)) (c + 1) rest
    | none => extractRowsAux m c rest

/-- Number of reference cells whose text matches the Contrato pattern. -/
def numMatching (cells : List String) : Nat :=
  (cells.filter (fun r => (findContrato r.toList).isSome)).length

/-- Abstract outcome of the pandas read in extract_contract_from_excel:
either the read raised (sheet missing or unreadable workbook) or it yielded
the named sheet as a grid of cell texts. -/
inductive ExcelRead where
  | failure (msg : String)
  | sheet (columns : List String) (rows : List (List String))

/-- Column selection of extract_contract_from_excel: first column whose
lowercased header contains the substring referencia. -/
def findRefColumn (columns : List String) : Option Nat :=
  columns.findIdx? (fun c => containsSub c.toLower.toList "referencia".toList)

/-- Result of extract_contract_from_excel: the new global CONTRACT_MAP, the
success flag and the message returned to the caller. -/
structure ExcelResult where
  contractMap : List (String × String)
  ok : Bool
  message : String

/-- Model of extract_contract_from_excel: the global map is reset to empty
before anything else, so the old map never contributes; a read failure or a
missing reference column reports an error with the map left empty; otherwise
the row loop builds the map and the count is reported. -/
def extract_contract_from_excel (oldMap : List (String × String)) (read : ExcelRead) :
    ExcelResult :=
  let reset : List (String × String) := []
  match oldMap, read with
  | _, .failure msg => { contractMap := reset, ok := false, message := msg }
  | _, .sheet cols rows =>
    match findRefColumn cols with
    | none =>
      { contractMap := reset, ok := false,
        message := "No se encontro la columna Referencia en la hoja." }
    | some i =>
      let res := extractRowsAux reset 0 (rows.map (fun row => row.getD i ""))
      { contractMap := res.1, ok := true,
        message := "Procesado exitosamente. " ++ toString res.2 ++ " mapeos creados." }

/-- Model of the collision branch of process_pending_files (473-474) and
reprocess_single_pdf (356-359): if the desired name exists in the
destination namespace, prepend the coarse timestamp and an underscore. -/
def allocate_name (desired : String) (ns : List String) (ts : Nat) : String :=
  if desired ∈ ns then toString ts ++ "_" ++ desired else desired

/-- The job-status globals IS_PROCESSING and LAST_PROCESSING_SUMMARY. -/
structure JobState where
  isProcessing : Bool
  processed : Nat
  errors : Nat
  deriving DecidableEq

/-- Last line of process_pending_files: the summary is set to one processed
job with zero errors. -/
def process_pending_files_summary (st : JobState) : JobState :=
  { st with processed := 1, errors := 0 }

/-- Model of the closure _run_async_processing: set the running flag, run
the pass; on an unhandled exception clear the flag and record the failure
summary; otherwise clear the flag and overwrite the summary with the
job-level success flag and the count of accept-time save errors. -/
def run_async_processing (saveErrors : Nat) (passRaises : Bool) (st : JobState) : JobState :=
  let st1 := { st with isProcessing := true }
  if passRaises then
    let st2 := { st1 with isProcessing := false }
    { st2 with processed := 0, errors := 1 }
  else
    let st2 := process_pending_files_summary st1
    let st3 := { st2 with isProcessing := false }
    { st3 with processed := 1, errors := saveErrors }

/-! Helper lemmas about the dict model. -/

theorem lookupMap_insertAssoc_self (m : List (String × String)) (k v : String) :
    lookupMap (insertAssoc m k v) k = some v := by
  induction m with
  | nil => simp [insertAssoc, lookupMap]
  | cons p m ih =>
    obtain ⟨k', v'⟩ := p
    simp only [insertAssoc]
    split
    · simp [lookupMap]
    · rename_i h
      simp only [lookupMap, h, ih]
      simp_all

theorem lookupMap_insertAssoc_ne (m : List (String × String)) (k v key : String)
    (h : key ≠ k) : lookupMap (insertAssoc m k v) key = lookupMap m key := by
  induction m with
  | nil =>
    simp only [insertAssoc, lookupMap]
    rw [if_neg (by simp [Ne.symm h])]
  | cons p m ih =>
    obtain ⟨k', v'⟩ := p
    simp only [insertAssoc]
    split
    · rename_i hk
      have hk' : k' = k := by simpa using hk
      subst hk'
      simp only [lookupMap]
      rw [if_neg (by simp [Ne.symm h]), if_neg (by simp [Ne.symm h])]
    · simp only [lookupMap, ih]

/-! Helper lemmas about the candidate loop. -/

theorem resolveLoop_first_key (cmap : List (String × String)) (pre : List String)
    (c : String) (post : List String) (u : String)
    (hpre : ∀ p ∈ pre, lookupMap cmap p = none) (hc : lookupMap cmap c = some u) :
    resolveLoop cmap (pre ++ c :: post) = some (c, u) := by
  induction pre with
  | nil => simp [resolveLoop, hc]
  | cons a pre ih =>
    have ha : lookupMap cmap a = none := hpre a (by simp)
    simp only [List.cons_append, resolveLoop, ha]
    exact ih (fun p hp => hpre p (by simp [hp]))

theorem resolveLoop_no_key (cmap : List (String × String)) (l : List String)
    (h : ∀ c ∈ l, lookupMap cmap c = none) : resolveLoop cmap l = none := by
  induction l with
  | nil => rfl
  | cons a l ih =>
    have ha : lookupMap cmap a = none := h a (by simp)
    simp only [resolveLoop, ha]
    exact ih (fun c hc => h c (by simp [hc]))

/-- C1: the resolver returns Renamed for the first candidate in iteration
order that is a key of the map, with the composed display name (location,
separator, invoice number or original base name, .pdf suffix) stripped of
the special characters; it returns UnmatchedCandidates naming the candidate
list when that list is non-empty but no candidate is a key; and
NoCandidates when the candidate list is empty. -/
theorem match_resolver_first_candidate (cmap : List (String × String))
    (cands : List String) (invoice : Option String) (filename : String) :
    (∀ pre c post u, cands = pre ++ c :: post →
        (∀ p ∈ pre, lookupMap cmap p = none) → lookupMap cmap c = some u →
        resolve cmap cands invoice filename =
          { newName := sanitize (u ++ " - " ++
              (invoice.getD (splitextBase filename)) ++ ".pdf"),
            status := .renamed c, ubicacion := u }) ∧
    (cands ≠ [] → (∀ c ∈ cands, lookupMap cmap c = none) →
        resolve cmap cands invoice filename =
          { newName := filename, status := .unmatchedCandidates cands, ubicacion := "" }) ∧
    (cands = [] →
        resolve cmap cands invoice filename =
          { newName := filename, status := .noCandidates, ubicacion := "" }) := by
  refine ⟨?_, ?_, ?_⟩
  · intro pre c post u hs hpre hc
    subst hs
    rw [resolve, resolveLoop_first_key cmap pre c post u hpre hc]
    cases invoice <;> rfl
  · intro hne hnone
    rw [resolve, resolveLoop_no_key cmap cands hnone]
    cases cands with
    | nil => exact absurd rfl hne
    | cons a l => rfl
  · intro h
    subst h
    rfl

/-- Witness for C1 at a concrete input: the second candidate is the first
map key, an invoice number is present, and the composed name is used. -/
theorem match_resolver_first_candidate_witness :
    resolve [("123456", "SiteA")] ["111111", "123456"] (some "20240001") "doc.pdf" =
      { newName := sanitize ("SiteA" ++ " - " ++
          ((some "20240001").getD (splitextBase "doc.pdf")) ++ ".pdf"),
        status := .renamed "123456", ubicacion := "SiteA" } :=
  (match_resolver_first_candidate [("123456", "SiteA")] ["111111", "123456"]
      (some "20240001") "doc.pdf").1 ["111111"] "123456" [] "SiteA" rfl
    (by decide) (by decide)

/-- C3 counterexample: with candidates scanned first-to-second and only the
second a key of the map, the code matches the second candidate and reports
Renamed, not UnmatchedCandidates naming the first. -/
theorem resolver_second_key_counterexample :
    (resolve [("123456", "SiteA")] ["111111", "123456"] none "doc.pdf").status =
        FileStatus.renamed "123456" ∧
    FileStatus.renamed "123456" ≠ FileStatus.unmatchedCandidates ["111111"] := by
  exact ⟨rfl, by decide⟩

/-- C3 amended: the candidate loop scans every candidate in order, so when
only the second candidate is a key the status is Renamed for that second
candidate; UnmatchedCandidates arises only when no candidate at all is a
key, and it then names the whole candidate list. -/
theorem resolver_scans_all_candidates (cmap : List (String × String)) (a b u : String)
    (inv : Option String) (f : String) (ha : lookupMap cmap a = none)
    (hb : lookupMap cmap b = some u) :
    (resolve cmap [a, b] inv f).status = .renamed b ∧
    (∀ cands : List String, cands ≠ [] → (∀ c ∈ cands, lookupMap cmap c = none) →
        (resolve cmap cands inv f).status = .unmatchedCandidates cands) := by
  constructor
  · rw [resolve, resolveLoop, ha, resolveLoop, hb]
  · intro cands hne hnone
    rw [resolve, resolveLoop_no_key cmap cands hnone]
    cases cands with
    | nil => exact absurd rfl hne
    | cons x l => rfl

/-- Witness for C3 amended at a concrete input. -/
theorem resolver_scans_all_candidates_witness :
    (resolve [("222222", "Depot")] ["000000", "222222"] none "inv.pdf").status =
        FileStatus.renamed "222222" :=
  (resolver_scans_all_candidates [("222222", "Depot")] "000000" "222222" "Depot"
      none "inv.pdf" (by decide) (by decide)).1

/-- C4: the four invoice patterns are tried in a fixed order, the first
rule with a match anywhere in the text wins and its first (leftmost) match
is returned; when all four fail the extraction equals the fallback that
scans only the first five lines for a standalone run of eight or more
digits; the function is total, so no error is raised. -/
theorem invoice_rule_priority (t : List Char) :
    (∀ r, ruleFactura t = some r → extract_invoice_number t = some r) ∧
    (ruleFactura t = none → ∀ r, ruleNLetter t = some r →
        extract_invoice_number t = some r) ∧
    (ruleFactura t = none → ruleNLetter t = none → ∀ r, ruleExactly8 t = some r →
        extract_invoice_number t = some r) ∧
    (ruleFactura t = none → ruleNLetter t = none → ruleExactly8 t = none →
        ∀ r, ruleNinePlus t = some r → extract_invoice_number t = some r) ∧
    (ruleFactura t = none → ruleNLetter t = none → ruleExactly8 t = none →
        ruleNinePlus t = none → extract_invoice_number t = fallbackFirstLines t) := by
  refine ⟨?_, ?_, ?_, ?_, ?_⟩
  · intro r h
    simp [extract_invoice_number, tryRules, patternRules, h]
  · intro h1 r h
    simp [extract_invoice_number, tryRules, patternRules, h1, h]
  · intro h1 h2 r h
    simp [extract_invoice_number, tryRules, patternRules, h1, h2, h]
  · intro h1 h2 h3 r h
    simp [extract_invoice_number, tryRules, patternRules, h1, h2, h3, h]
  · intro h1 h2 h3 h4
    simp [extract_invoice_number, tryRules, patternRules, h1, h2, h3, h4]

/-- Witness for C4 at a concrete input: the Factura rule does not match, so
the N rule decides and its first match is returned. -/
theorem invoice_rule_priority_witness :
    extract_invoice_number "N: 12345678".toList = some "12345678".toList :=
  (invoice_rule_priority "N: 12345678".toList).2.1 (by decide) "12345678".toList
    (by decide)

/-- C7 counterexample: when the namespace already holds both the desired
name and its timestamp-prefixed variant, the allocator returns the
timestamp-prefixed name even though it collides with the snapshot. -/
theorem allocator_timestamp_collision_counterexample :
    allocate_name "A.pdf" ["A.pdf", "0_A.pdf"] 0 = "0_A.pdf" ∧
    "0_A.pdf" ∈ ["A.pdf", "0_A.pdf"] := by
  refine ⟨rfl, by decide⟩

/-- C7 amended: a desired name absent from the namespace snapshot is
returned unchanged; a present one is returned with the coarse timestamp and
an underscore prepended, which always differs from the desired name, but
nothing prevents it from colliding with the snapshot (a timestamp-second
collision is not handled). -/
theorem allocator_disambiguation (desired : String) (ns : List String) (ts : Nat) :
    (desired ∉ ns → allocate_name desired ns ts = desired) ∧
    (desired ∈ ns → allocate_name desired ns ts = toString ts ++ "_" ++ desired ∧
        allocate_name desired ns ts ≠ desired) := by
  refine ⟨fun h => by simp [allocate_name, h], fun h => ⟨by simp [allocate_name, h], ?_⟩⟩
  simp only [allocate_name, if_pos h]
  intro heq
  have hlen := congrArg String.length heq
  rw [String.length_append, String.length_append] at hlen
  have h1 : ("_" : String).length = 1 := rfl
  omega

/-- Witness for C7 amended at a concrete input with the name present. -/
theorem allocator_disambiguation_witness :
    allocate_name "B.pdf" ["B.pdf"] 5 = toString 5 ++ "_" ++ "B.pdf" ∧
    allocate_name "B.pdf" ["B.pdf"] 5 ≠ "B.pdf" :=
  (allocator_disambiguation "B.pdf" ["B.pdf"] 5).2 (by decide)

/-- C8: whatever the prior job state, the background wrapper clears the
running flag; on a clean pass the summary becomes one processed job with
the accept-time save-error count (overwriting the zero-error summary the
pass itself wrote), and on an unhandled exception it becomes zero processed
jobs with one error. -/
theorem batch_summary_transitions (saveErrors : Nat) (passRaises : Bool) (st : JobState) :
    (run_async_processing saveErrors passRaises st).isProcessing = false ∧
    (run_async_processing saveErrors passRaises st).processed =
        (if passRaises then 0 else 1) ∧
    (run_async_processing saveErrors passRaises st).errors =
        (if passRaises then 1 else saveErrors) := by
  cases passRaises <;>
    simp [run_async_processing, process_pending_files_summary]

/-! Helper lemmas about the row loop of the map builder. -/

theorem extractRowsAux_append (m : List (String × String)) (c : Nat) (xs ys : List String) :
    extractRowsAux m c (xs ++ ys) =
      extractRowsAux (extractRowsAux m c xs).1 (extractRowsAux m c xs).2 ys := by
  induction xs generalizing m c with
  | nil => rfl
  | cons a xs ih =>
    cases h : findContrato a.toList with
    | none =>
      simp only [List.cons_append, extractRowsAux, h]
      exact ih _ _
    | some p =>
      simp only [List.cons_append, extractRowsAux, h]
      exact ih _ _

theorem extractRowsAux_lookup_of_no_key (m : List (String × String)) (c : Nat)
    (cells : List String) (k : String)
    (h : ∀ r ∈ cells, ∀ p, findContrato r.toList = some p → pyStrip p.1 ≠ k) :
    lookupMap (extractRowsAux m c cells).1 k = lookupMap m k := by
  induction cells generalizing m c with
  | nil => rfl
  | cons a cells ih =>
    cases hf : findContrato a.toList with
    | none =>
      simp only [extractRowsAux, hf]
      exact ih _ _ (fun r hr => h r (by simp [hr]))
    | some p =>
      simp only [extractRowsAux, hf]
      rw [ih _ _ (fun r hr => h r (by simp [hr]))]
      exact lookupMap_insertAssoc_ne m (pyStrip p.1) (pyStrip p.2) k
        (Ne.symm (h a (by simp) p hf))

theorem numMatching_cons (a : String) (cells : List String) :
    numMatching (a :: cells) =
      (if (findContrato a.toList).isSome then 1 else 0) + numMatching cells := by
  simp only [numMatching, List.filter_cons]
  split
  · simp [Nat.add_comm]
  · simp

theorem extractRowsAux_count (m : List (String × String)) (c : Nat) (cells : List String) :
    (extractRowsAux m c cells).2 = c + numMatching cells := by
  induction cells generalizing m c with
  | nil => simp [extractRowsAux, numMatching]
  | cons a cells ih =>
    cases hf : findContrato a.toList with
    | none =>
      simp only [extractRowsAux, hf]
      rw [ih, numMatching_cons, hf]
      simp
    | some p =>
      simp only [extractRowsAux, hf]
      rw [ih, numMatching_cons, hf]
      simp only [Option.isSome_some, if_pos]
      omega

theorem length_insertAssoc_le (m : List (String × String)) (k v : String) :
    (insertAssoc m k v).length ≤ m.length + 1 := by
  induction m with
  | nil => simp [insertAssoc]
  | cons p m ih =>
    obtain ⟨k', v'⟩ := p
    simp only [insertAssoc]
    split
    · simp
    · simpa using ih

theorem length_insertAssoc_of_mem (m : List (String × String)) (k v : String)
    (h : (lookupMap m k).isSome = true) : (insertAssoc m k v).length = m.length := by
  induction m with
  | nil => simp [lookupMap] at h
  | cons p m ih =>
    obtain ⟨k', v'⟩ := p
    simp only [insertAssoc]
    split
    · simp
    · rename_i hne
      simp only [lookupMap, hne, if_false] at h
      simp [ih h]

theorem lookupMap_insertAssoc_isSome (m : List (String × String)) (k v key : String)
    (h : (lookupMap m key).isSome = true) :
    (lookupMap (insertAssoc m k v) key).isSome = true := by
  by_cases hkey : key = k
  · subst hkey
    rw [lookupMap_insertAssoc_self]
    rfl
  · rw [lookupMap_insertAssoc_ne m k v key hkey]
    exact h

theorem extractRowsAux_key_persists (m : List (String × String)) (c : Nat)
    (cells : List String) (k : String) (h : (lookupMap m k).isSome = true) :
    (lookupMap (extractRowsAux m c cells).1 k).isSome = true := by
  induction cells generalizing m c with
  | nil => exact h
  | cons a cells ih =>
    cases hf : findContrato a.toList with
    | none =>
      simp only [extractRowsAux, hf]
      exact ih _ _ h
    | some p =>
      simp only [extractRowsAux, hf]
      exact ih _ _ (lookupMap_insertAssoc_isSome m (pyStrip p.1) (pyStrip p.2) k h)

theorem extractRowsAux_length_le (m : List (String × String)) (c : Nat)
    (cells : List String) :
    (extractRowsAux m c cells).1.length ≤ m.length + numMatching cells := by
  induction cells generalizing m c with
  | nil => simp [extractRowsAux, numMatching]
  | cons a cells ih =>
    cases hf : findContrato a.toList with
    | none =>
      simp only [extractRowsAux, hf]
      have := ih (m := m) (c := c)
      simp only [numMatching, List.filter_cons, hf] at *
      simpa using this
    | some p =>
      simp only [extractRowsAux, hf]
      have h1 := ih (m := insertAssoc m (pyStrip p.1) (pyStrip p.2)) (c := c + 1)
      have h2 := length_insertAssoc_le m (pyStrip p.1) (pyStrip p.2)
      simp only [numMatching, List.filter_cons, hf, Option.isSome_some, if_pos,
        List.length_cons] at *
      omega

theorem extractRowsAux_key_origin (m : List (String × String)) (c : Nat)
    (cells : List String) (k : String)
    (h : (lookupMap (extractRowsAux m c cells).1 k).isSome = true) :
    (lookupMap m k).isSome = true ∨
      ∃ r ∈ cells, ∃ p, findContrato r.toList = some p ∧ pyStrip p.1 = k := by
  induction cells generalizing m c with
  | nil => exact Or.inl h
  | cons a cells ih =>
    cases hf : findContrato a.toList with
    | none =>
      rcases ih _ _ (by simpa only [extractRowsAux, hf] using h) with h' | ⟨r, hr, q, hq, hqk⟩
      · exact Or.inl h'
      · exact Or.inr ⟨r, by simp [hr], q, hq, hqk⟩
    | some p =>
      rcases ih _ _ (by simpa only [extractRowsAux, hf] using h) with h' | ⟨r, hr, q, hq, hqk⟩
      · by_cases hk : k = pyStrip p.1
        · exact Or.inr ⟨a, by simp, p, hf, hk.symm⟩
        · rw [lookupMap_insertAssoc_ne _ _ _ _ hk] at h'
          exact Or.inl h'
      · exact Or.inr ⟨r, by simp [hr], q, hq, hqk⟩

theorem numMatching_append (xs ys : List String) :
    numMatching (xs ++ ys) = numMatching xs + numMatching ys := by
  simp [numMatching, List.filter_append]

/-- C5: a data row whose reference cell contains a match of the Contrato
pattern contributes the captured digit string (stripped) as a key mapped to
the stripped location, with the last matching row winning for a repeated
contract number; rows without a match contribute no entry. -/
theorem contract_map_row_semantics (cells : List String) (k : String) :
    ((∀ r ∈ cells, ∀ p, findContrato r.toList = some p → pyStrip p.1 ≠ k) →
        lookupMap (extractRowsAux [] 0 cells).1 k = none) ∧
    (∀ l1 r l2 p, cells = l1 ++ r :: l2 → findContrato r.toList = some p →
        (∀ r' ∈ l2, ∀ q, findContrato r'.toList = some q → pyStrip q.1 ≠ pyStrip p.1) →
        lookupMap (extractRowsAux [] 0 cells).1 (pyStrip p.1) = some (pyStrip p.2)) := by
  constructor
  · intro h
    rw [extractRowsAux_lookup_of_no_key [] 0 cells k h]
    rfl
  · intro l1 r l2 p hs hf hl2
    subst hs
    rw [extractRowsAux_append]
    have hr : extractRowsAux (extractRowsAux [] 0 l1).1 (extractRowsAux [] 0 l1).2
        (r :: l2) = extractRowsAux
          (insertAssoc (extractRowsAux [] 0 l1).1 (pyStrip p.1) (pyStrip p.2))
          ((extractRowsAux [] 0 l1).2 + 1) l2 := by
      simp only [extractRowsAux, hf]
    rw [hr, extractRowsAux_lookup_of_no_key _ _ l2 _ hl2]
    exact lookupMap_insertAssoc_self _ _ _

/-- Witness for C5 at a concrete input: the matching first row lands in the
map with its stripped location, the junk row contributes nothing. -/
theorem contract_map_row_semantics_witness :
    lookupMap (extractRowsAux [] 0 ["Contrato 123456/ SiteA ", "junk"]).1
        (pyStrip "123456") = some (pyStrip " SiteA ") :=
  (contract_map_row_semantics ["Contrato 123456/ SiteA ", "junk"] "123456").2
    [] "Contrato 123456/ SiteA " ["junk"] ("123456", " SiteA ") rfl (by decide)
    (by decide)

/-- C6: the builder resets the global map before reading, so the result
never depends on the previous map and every key of the new map is derived
from a matching row of the new sheet; a failed read or a missing reference
column is reported to the caller with the map left empty. -/
theorem contract_map_rebuild (oldMap : List (String × String)) (read : ExcelRead) :
    (extract_contract_from_excel oldMap read = extract_contract_from_excel [] read) ∧
    (∀ k, (lookupMap (extract_contract_from_excel oldMap read).contractMap k).isSome = true →
        ∃ cols rows i row, read = .sheet cols rows ∧ findRefColumn cols = some i ∧
          row ∈ rows ∧ ∃ p, findContrato (row.getD i "").toList = some p ∧
            pyStrip p.1 = k) ∧
    (∀ msg, read = .failure msg →
        (extract_contract_from_excel oldMap read).contractMap = [] ∧
        (extract_contract_from_excel oldMap read).ok = false) ∧
    (∀ cols rows, read = .sheet cols rows → findRefColumn cols = none →
        (extract_contract_from_excel oldMap read).contractMap = [] ∧
        (extract_contract_from_excel oldMap read).ok = false) := by
  refine ⟨?_, ?_, ?_, ?_⟩
  · cases read <;> rfl
  · intro k hk
    cases read with
    | failure msg => simp [extract_contract_from_excel, lookupMap] at hk
    | sheet cols rows =>
      cases hc : findRefColumn cols with
      | none => simp [extract_contract_from_excel, hc, lookupMap] at hk
      | some i =>
        simp only [extract_contract_from_excel, hc] at hk
        rcases extractRowsAux_key_origin [] 0 _ k hk with h' | ⟨r, hr, p, hp, hpk⟩
        · simp [lookupMap] at h'
        · rcases List.mem_map.mp hr with ⟨row, hrow, hcell⟩
          exact ⟨cols, rows, i, row, rfl, hc, hrow, p, by rw [hcell]; exact hp, hpk⟩
  · intro msg h
    subst h
    exact ⟨rfl, rfl⟩
  · intro cols rows h hc
    subst h
    simp [extract_contract_from_excel, hc]

/-- Witness for C6 at a concrete input: a failed spreadsheet read reports
the error and leaves the map empty. -/
theorem contract_map_rebuild_witness :
    (extract_contract_from_excel [("999999", "Old")] (.failure "missing sheet")).contractMap
        = [] ∧
    (extract_contract_from_excel [("999999", "Old")] (.failure "missing sheet")).ok
        = false :=
  (contract_map_rebuild [("999999", "Old")] (.failure "missing sheet")).2.2.1
    "missing sheet" rfl

/-- C9: the reported count increments once per matching row, so it equals
the number of matching rows, dominates the size of the resulting map, and
strictly dominates it when two matching rows carry the same contract
number. -/
theorem mapping_count_bounds (cells : List String) :
    (extractRowsAux [] 0 cells).2 = numMatching cells ∧
    (extractRowsAux [] 0 cells).1.length ≤ (extractRowsAux [] 0 cells).2 ∧
    (∀ l1 r1 l2 r2 l3 k, cells = l1 ++ r1 :: (l2 ++ r2 :: l3) →
        (∃ p, findContrato r1.toList = some p ∧ pyStrip p.1 = k) →
        (∃ q, findContrato r2.toList = some q ∧ pyStrip q.1 = k) →
        (extractRowsAux [] 0 cells).1.length < (extractRowsAux [] 0 cells).2) := by
  refine ⟨by simpa using extractRowsAux_count [] 0 cells, ?_, ?_⟩
  · rw [extractRowsAux_count [] 0 cells]
    simpa using extractRowsAux_length_le [] 0 cells
  · rintro l1 r1 l2 r2 l3 k hs ⟨p, hp, hpk⟩ ⟨q, hq, hqk⟩
    subst hs
    rw [extractRowsAux_append]
    have h1 : extractRowsAux (extractRowsAux [] 0 l1).1 (extractRowsAux [] 0 l1).2
        (r1 :: (l2 ++ r2 :: l3)) = extractRowsAux
          (insertAssoc (extractRowsAux [] 0 l1).1 k (pyStrip p.2))
          ((extractRowsAux [] 0 l1).2 + 1) (l2 ++ r2 :: l3) := by
      simp only [extractRowsAux, hp, hpk]
    rw [h1, extractRowsAux_append]
    set A := extractRowsAux [] 0 l1 with hA
    set M1 := insertAssoc A.1 k (pyStrip p.2) with hM1
    set B := extractRowsAux M1 (A.2 + 1) l2 with hB
    have hkM1 : (lookupMap M1 k).isSome = true := by
      rw [hM1, lookupMap_insertAssoc_self]
      rfl
    have hkB : (lookupMap B.1 k).isSome = true :=
      extractRowsAux_key_persists M1 (A.2 + 1) l2 k hkM1
    have h2 : extractRowsAux B.1 B.2 (r2 :: l3) =
        extractRowsAux (insertAssoc B.1 k (pyStrip q.2)) (B.2 + 1) l3 := by
      simp only [extractRowsAux, hq, hqk]
    rw [h2]
    have hlen3 := extractRowsAux_length_le (insertAssoc B.1 k (pyStrip q.2)) (B.2 + 1) l3
    have hlenq : (insertAssoc B.1 k (pyStrip q.2)).length = B.1.length :=
      length_insertAssoc_of_mem B.1 k (pyStrip q.2) hkB
    have hlenB : B.1.length ≤ M1.length + numMatching l2 :=
      extractRowsAux_length_le M1 (A.2 + 1) l2
    have hlenM1 : M1.length ≤ A.1.length + 1 := length_insertAssoc_le A.1 k (pyStrip p.2)
    have hlenA : A.1.length ≤ numMatching l1 := by
      simpa using extractRowsAux_length_le [] 0 l1
    have hcnt3 := extractRowsAux_count (insertAssoc B.1 k (pyStrip q.2)) (B.2 + 1) l3
    have hcntB : B.2 = (A.2 + 1) + numMatching l2 := extractRowsAux_count M1 (A.2 + 1) l2
    have hcntA : A.2 = numMatching l1 := by
      simpa using extractRowsAux_count [] 0 l1
    omega

/-- Witness for C9 at a concrete input: two matching rows with the same
contract number give a map strictly smaller than the reported count. -/
theorem mapping_count_bounds_witness :
    (extractRowsAux [] 0 ["Contrato 111111/A", "Contrato 111111/B"]).1.length <
      (extractRowsAux [] 0 ["Contrato 111111/A", "Contrato 111111/B"]).2 :=
  (mapping_count_bounds ["Contrato 111111/A", "Contrato 111111/B"]).2.2
    [] "Contrato 111111/A" [] "Contrato 111111/B" [] "111111" rfl
    ⟨("111111", "A"), by decide, by decide⟩ ⟨("111111", "B"), by decide, by decide⟩

/-! Equivalence of the position scan of the six-digit pattern with the
specification-level reading of a contract candidate. -/

theorem mem_rawContractCandidates_iff (text s : List Char) :
    s ∈ rawContractCandidates text ↔ isSixDigitToken text s := by
  constructor
  · intro hs
    rw [rawContractCandidates, List.mem_filterMap] at hs
    obtain ⟨i, hi, hf⟩ := hs
    rw [List.mem_range] at hi
    rw [run6At] at hf
    split at hf
    · rename_i hcond
      obtain rfl : (text.drop i).take 6 = s := Option.some.inj hf
      simp only [Bool.and_eq_true, beq_iff_eq] at hcond
      obtain ⟨⟨⟨hlen, hdig⟩, hbefore⟩, hafter⟩ := hcond
      have hminlen : ((text.drop i).take 6).length = min 6 (text.length - i) := by
        simp [List.length_take, List.length_drop]
      have hle : i + 6 ≤ text.length := by
        rw [hlen] at hminlen
        rcases Nat.le_total 6 (text.length - i) with h | h
        · omega
        · rw [min_eq_right h] at hminlen
          omega
      refine ⟨text.take i, text.drop (i + 6), ?_, hlen, hdig, ?_, ?_⟩
      · calc text = text.take i ++ text.drop i := (List.take_append_drop i text).symm
          _ = text.take i ++ ((text.drop i).take 6 ++ text.drop (i + 6)) := by
              conv_lhs => rw [← List.take_append_drop 6 (text.drop i)]
              rw [List.drop_drop]
          _ = (text.take i ++ (text.drop i).take 6) ++ text.drop (i + 6) := by
              rw [List.append_assoc]
      · intro c hc
        cases i with
        | zero => simp at hc
        | succ j =>
          have hb : isWordChar (text.getD j ' ') = false := by
            simp only [boundaryBeforeOk, Bool.or_eq_true, beq_iff_eq,
              Bool.not_eq_true'] at hbefore
            rcases hbefore with h | h
            · omega
            · simpa using h
          have hlen' : (text.take (j + 1)).length = j + 1 := by
            rw [List.length_take]
            omega
          have hc' : (text.take (j + 1)).getLast? = text[j]? := by
            rw [List.getLast?_eq_getElem? (text.take (j + 1)), hlen']
            simp only [Nat.add_sub_cancel]
            rw [List.getElem?_take, if_pos (Nat.lt_succ_self j)]
          rw [hc'] at hc
          have : text.getD j ' ' = c := by
            rw [List.getD_eq_getElem?_getD, hc]
            rfl
          rw [← this]
          exact hb
      · intro c hc
        cases hpost : text.drop (i + 6) with
        | nil => rw [hpost] at hc; simp at hc
        | cons d l =>
          rw [hpost] at hafter hc
          simp only [List.head?_cons, Option.some_inj] at hc
          subst hc
          simpa [afterOk] using hafter
    · exact absurd hf (by simp)
  · rintro ⟨pre, post, htext, hlen, hdig, hpre, hpost⟩
    rw [rawContractCandidates, List.mem_filterMap]
    refine ⟨pre.length, ?_, ?_⟩
    · rw [List.mem_range, htext]
      simp only [List.length_append, hlen]
      omega
    · have hdropi : text.drop pre.length = s ++ post := by
        rw [htext, List.append_assoc, List.drop_left]
      have htake : (text.drop pre.length).take 6 = s := by
        rw [hdropi, ← hlen, List.take_left]
      have hafter : text.drop (pre.length + 6) = post := by
        have hlps : (pre ++ s).length = pre.length + 6 := by
          rw [List.length_append, hlen]
        rw [htext, ← hlps, List.drop_left]
      have hbound : boundaryBeforeOk text pre.length = true := by
        by_cases hne : pre = []
        · subst hne
          rfl
        · simp only [boundaryBeforeOk, Bool.or_eq_true, beq_iff_eq, Bool.not_eq_true']
          right
          obtain ⟨c, hc⟩ := Option.isSome_iff_exists.mp (List.getLast?_isSome.mpr hne)
          have hcw : isWordChar c = false := hpre c hc
          have hplen : 0 < pre.length := List.length_pos.mpr hne
          have hidx : text[pre.length - 1]? = some c := by
            rw [htext]
            rw [List.getElem?_append_left (by rw [List.length_append]; omega)]
            rw [List.getElem?_append_left (by omega)]
            rw [← hc, List.getLast?_eq_getElem? pre]
          rw [List.getD_eq_getElem?_getD, hidx]
          simpa using hcw
      have hafterok : afterOk (text.drop (pre.length + 6)) = true := by
        rw [hafter]
        cases hq : post with
        | nil => rfl
        | cons d l =>
          have : isWordChar d = false := hpost d (by simp [hq])
          simp [afterOk, this]
      rw [run6At, htake, hlen, hbound, hafterok]
      simp [hdig]

/-- C2 counterexample: the findall order of the two candidates is first
occurrence first, yet the reversed list is also an admissible result of
list(set(...)) because set iteration order is unspecified; that admissible
result does not preserve first-occurrence order, so the order guarantee of
the claim does not hold of the code. -/
theorem contract_candidate_order_counterexample :
    rawContractCandidates ("123456 654321".toList) =
        ["123456".toList, "654321".toList] ∧
    pySetListOutcome (rawContractCandidates ("123456 654321".toList))
        ["654321".toList, "123456".toList] ∧
    ["654321".toList, "123456".toList] ≠ ["123456".toList, "654321".toList] := by
  refine ⟨by decide, ⟨by decide, by decide, by decide⟩, by decide⟩

/-- C2 amended: the extraction returns the maximal runs of exactly six
digits bounded by word boundaries, deduplicated, but in an unspecified
order rather than the order of first occurrence: any admissible result is a
duplicate-free list whose members are exactly the six-digit tokens of the
text. -/
theorem contract_candidates_set_semantics (text : List Char) (r : List (List Char))
    (h : pySetListOutcome (rawContractCandidates text) r) :
    r.Nodup ∧ ∀ s, s ∈ r ↔ isSixDigitToken text s := by
  obtain ⟨hnd, hsub, hsup⟩ := h
  refine ⟨hnd, fun s => ⟨fun hs => (mem_rawContractCandidates_iff text s).mp (hsub s hs),
    fun hs => hsup s ((mem_rawContractCandidates_iff text s).mpr hs)⟩⟩

/-- Witness for C2 amended at a concrete input. -/
theorem contract_candidates_set_semantics_witness :
    ["123456".toList].Nodup ∧
    ("123456".toList ∈ ["123456".toList] ↔
        isSixDigitToken ("a 123456 b".toList) "123456".toList) :=
  ⟨(contract_candidates_set_semantics ("a 123456 b".toList) ["123456".toList]
      ⟨by decide, by decide, by decide⟩).1,
   (contract_candidates_set_semantics ("a 123456 b".toList) ["123456".toList]
      ⟨by decide, by decide, by decide⟩).2 "123456".toList⟩

/-! Helper lemma for C10: sanitized names contain no slash, so their
basename is themselves. -/

theorem pyBasename_of_no_slash (s : String) (h : ∀ c ∈ s.toList, c ≠ '/') :
    pyBasename s = s := by
  have hnone : lastIndexOfChar s.toList '/' = none := by
    rw [lastIndexOfChar]
    have : (s.toList.enum.filter (fun p => p.2 == '/')) = [] := by
      rw [List.filter_eq_nil_iff]
      intro p hp
      obtain ⟨i, c⟩ := p
      rw [List.mem_enum_iff_getElem?] at hp
      have hc : c ∈ s.toList := List.getElem?_mem hp
      simpa using h c hc
    rw [this]
    rfl
  rw [pyBasename, hnone]

theorem pyBasename_sanitize (x : String) : pyBasename (sanitize x) = sanitize x := by
  refine pyBasename_of_no_slash (sanitize x) ?_
  intro c hc
  have hlist : (sanitize x).toList = x.toList.filter (fun c => !(isStrippedChar c)) := rfl
  rw [hlist] at hc
  have hcs : (!(isStrippedChar c)) = true := (List.mem_filter.mp hc).2
  intro hslash
  subst hslash
  simp [isStrippedChar] at hcs

/-- C10 counterexample: a matched file without an extracted invoice number
is renamed again by a second pass: the composed name embeds the current
filename, so reprocessing the first-pass output SiteA - doc.pdf composes
SiteA - SiteA - doc.pdf and the move fires, contradicting the claim that a
second pass leaves every matched file's name the same. -/
theorem second_pass_rename_counterexample :
    (resolve [("123456", "SiteA")] ["123456"] none "doc.pdf").newName =
        "SiteA - doc.pdf" ∧
    (resolve [("123456", "SiteA")] ["123456"] none "SiteA - doc.pdf").newName =
        "SiteA - SiteA - doc.pdf" ∧
    rootFileMoves [("123456", "SiteA")] ["123456"] none "SiteA - doc.pdf" = true := by
  exact ⟨rfl, rfl, rfl⟩

/-- C10 amended: no move is performed when the composed basename equals the
current filename; and when an invoice number was extracted the composed
name is independent of the current filename, so a second pass over a
matched file reproduces the same name and performs no move.  Without an
invoice number the composed name embeds the current filename and the
second pass renames the file again. -/
theorem rename_step_invoice_idempotent (cmap : List (String × String))
    (cands : List String) (inv : Option String) (c u : String)
    (hmatch : resolveLoop cmap cands = some (c, u)) :
    (∀ g, pyBasename (resolve cmap cands inv g).newName = g →
        rootFileMoves cmap cands inv g = false) ∧
    (∀ i f, inv = some i →
        (resolve cmap cands inv ((resolve cmap cands inv f).newName)).newName =
          (resolve cmap cands inv f).newName ∧
        rootFileMoves cmap cands inv ((resolve cmap cands inv f).newName) = false) := by
  constructor
  · intro g hg
    rw [rootFileMoves, hg]
    simp
  · intro i f hinv
    subst hinv
    have h1 : ∀ g, resolve cmap cands (some i) g =
        { newName := sanitize (u ++ " - " ++ i ++ ".pdf"),
          status := .renamed c, ubicacion := u } := by
      intro g
      rw [resolve, hmatch]
    constructor
    · rw [h1, h1]
    · rw [rootFileMoves, h1, h1]
      simp [pyBasename_sanitize]

/-- Witness for C10 amended at a concrete input with an invoice number. -/
theorem rename_step_invoice_idempotent_witness :
    (resolve [("123456", "SiteA")] ["123456"] (some "20240001")
        ((resolve [("123456", "SiteA")] ["123456"] (some "20240001") "doc.pdf").newName)).newName =
      (resolve [("123456", "SiteA")] ["123456"] (some "20240001") "doc.pdf").newName ∧
    rootFileMoves [("123456", "SiteA")] ["123456"] (some "20240001")
        ((resolve [("123456", "SiteA")] ["123456"] (some "20240001") "doc.pdf").newName) = false :=
  (rename_step_invoice_idempotent [("123456", "SiteA")] ["123456"] (some "20240001")
      "123456" "SiteA" (by decide)).2 "20240001" "doc.pdf" rfl

end GestorFacturas
